import Mathlib

/-!
Shallow embedding of `azkaban/project.py` (the `Project` class) and the
parts of its environment the verification needs.

Conventions of the embedding:
* Python dictionaries (`self._jobs`, `self._files`, parsed rc files, JSON
  objects) become association lists `List (String × α)`; membership and
  indexing go through `alookup`, and inserting a fresh key appends.
* Raised exceptions become `Except PyExc` results.  `AzkabanError` is the
  `PyExc.azkaban` constructor; Python `ValueError`, `KeyError` and `IOError`
  and the `requests` exceptions keep their own constructors so that which
  exception type escapes is visible in the model.
* The filesystem, the HTTP layer, `getuser` and `getpass` are oracles
  passed in explicitly (`FileSys`, `CredWorld`, request functions).
-/

set_option autoImplicit false

namespace Azkaban

/-- Python exceptions that the code under `src/azkaban/project.py` can raise
or propagate.  `azkaban` is the domain error `AzkabanError`; the other
constructors model built-in / third-party exception types that the code does
not convert. -/
inductive PyExc where
  | azkaban (msg : String)
  | valueError (msg : String)
  | keyError (key : String)
  | ioError (path : String)
  | connectionError
  | missingSchema
  deriving DecidableEq, Repr

/-- Model of Python `repr` on the simple quote-free strings used here:
`%r` wraps the string in single quotes. -/
def pyRepr (s : String) : String := "\x27" ++ s ++ "\x27"

/-- First-match association-list lookup: the meaning of `d[k]` / `k in d`
for an embedded Python dict. -/
def alookup {α : Type} (k : String) : List (String × α) → Option α
  | [] => none
  | (k', v) :: rest => if k' = k then some v else alookup k rest

/-- A `Job` is opaque to `project.py` except for the text its `build`
method writes; the `on_add` / `on_build` hooks of the base class are no-ops. -/
structure Job where
  content : String
  deriving DecidableEq, Repr

/-- The `Project` aggregate: `name`, the `_jobs` dict and the `_files` dict
(absolute path ↦ optional archive path). -/
structure Project where
  name : String
  jobs : List (String × Job)
  files : List (String × Option String)
  deriving DecidableEq, Repr

/-- Filesystem oracle: `os.path.exists` and file contents. -/
structure FileSys where
  fsExists : String → Bool
  fsContent : String → String

/-- `os.path.isabs` on posix: the path starts with the separator `/`
(stated over the character list so that concrete instances evaluate). -/
def isabs (p : String) : Bool :=
  match p.data with
  | [] => false
  | c :: _ => c = '/'

instance {ε α : Type} [DecidableEq ε] [DecidableEq α] :
    DecidableEq (Except ε α) := fun a b =>
  match a, b with
  | .ok x, .ok y =>
      if h : x = y then .isTrue (by rw [h])
      else .isFalse (fun hc => h (Except.ok.inj hc))
  | .ok _, .error _ => .isFalse (fun hc => Except.noConfusion hc)
  | .error _, .ok _ => .isFalse (fun hc => Except.noConfusion hc)
  | .error x, .error y =>
      if h : x = y then .isTrue (by rw [h])
      else .isFalse (fun hc => h (Except.error.inj hc))

/-- `Project.add_file` (project.py lines 56-75): reject relative paths;
a path already registered must be registered with the same archive path
(and is then a no-op, with no filesystem check); a fresh path must exist
on disk and is appended to `_files`. -/
def add_file (fs : FileSys) (self : Project) (path : String)
    (archive_path : Option String) : Except PyExc Project :=
  if !(isabs path) then
    .error (.azkaban ("relative path not allowed " ++ pyRepr path))
  else
    match alookup path self.files with
    | some ap =>
        if ap ≠ archive_path then
          .error (.azkaban ("inconsistent duplicate " ++ pyRepr path))
        else
          .ok self
    | none =>
        if !(fs.fsExists path) then
          .error (.azkaban ("missing file " ++ pyRepr path))
        else
          .ok { self with files := self.files ++ [(path, archive_path)] }

/-- `Project.add_job` (project.py lines 77-93): duplicate names are an
`AzkabanError`; otherwise the job is stored under `name` (the base class
`on_add` hook does nothing). -/
def add_job (self : Project) (name : String) (job : Job) : Except PyExc Project :=
  if (alookup name self.jobs).isSome then
    .error (.azkaban ("duplicate job name " ++ pyRepr name))
  else
    .ok { self with jobs := self.jobs ++ [(name, job)] }

/-- The jobs loop of `Project.merge_into` (project.py lines 104-105): run
`add_job` on the target for each `(name, job)` item of the source snapshot,
stopping at the first raised exception but keeping the target state reached
so far (Python leaves the mutated target in place when the loop raises). -/
def addJobsAcc : Project → List (String × Job) → Project × Option PyExc
  | tgt, [] => (tgt, none)
  | tgt, (n, j) :: rest =>
      match add_job tgt n j with
      | .ok tgt' => addJobsAcc tgt' rest
      | .error e => (tgt, some e)

/-- The files loop of `Project.merge_into` (project.py lines 106-107),
analogous to `addJobsAcc`. -/
def addFilesAcc (fs : FileSys) : Project → List (String × Option String) →
    Project × Option PyExc
  | tgt, [] => (tgt, none)
  | tgt, (p, a) :: rest =>
      match add_file fs tgt p a with
      | .ok tgt' => addFilesAcc fs tgt' rest
      | .error e => (tgt, some e)

/-- `Project.merge_into` (project.py lines 95-107): add every job of the
source to the target, then every file; the result is the final target state
together with the exception that interrupted the merge, if any. -/
def merge_into (fs : FileSys) (self target : Project) : Project × Option PyExc :=
  match addJobsAcc target self.jobs with
  | (t₁, some e) => (t₁, some e)
  | (t₁, none) => addFilesAcc fs t₁ self.files

/-- A store of Python `Project` objects, addressed by object identity; used
to express that `merge_into` writes only through the `project` argument. -/
def Store : Type := Nat → Project

/-- Store update at one reference. -/
def storeSet (σ : Store) (r : Nat) (p : Project) : Store :=
  fun r' => if r' = r then p else σ r'

/-- `self.merge_into(project)` acting on a store: the `.items()` snapshots
are taken from the object at `selfRef` (Python 2 `dict.items()` returns a
list copy), and every `add_job` / `add_file` call reads and writes only the
object at `tgtRef`; threading those updates is `merge_into` on the two
projects, and the store is written back at `tgtRef`. -/
def mergeIntoRef (fs : FileSys) (σ : Store) (selfRef tgtRef : Nat) :
    Store × Option PyExc :=
  match merge_into fs (σ selfRef) (σ tgtRef) with
  | (t', e) => (storeSet σ tgtRef t', e)

/-- One `writer.write(...)` call recorded while building the archive:
either a job file (temporary file holding the job's text, archived as
`<name>.job`) or a registered file (archived under its registered archive
path, `none` meaning `ZipFile.write`'s default naming from the source path). -/
inductive ZipEntry where
  | jobEntry (arcname : String) (content : String)
  | fileEntry (srcPath : String) (arcname : Option String)
  deriving DecidableEq, Repr

/-- The job half of the archive: for every job, one entry named
`<name>.job` holding the text the job's `build` wrote. -/
def buildJobEntries (self : Project) : List ZipEntry :=
  self.jobs.map (fun p => .jobEntry (p.1 ++ ".job") p.2.content)

/-- The file half of the archive: `writer.write(fpath, apath)` opens
`fpath` on disk, so a registered path missing at build time raises
`IOError` (not `AzkabanError`). -/
def buildFileEntries (fs : FileSys) :
    List (String × Option String) → Except PyExc (List ZipEntry)
  | [] => .ok []
  | (p, a) :: rest =>
      if fs.fsExists p then
        match buildFileEntries fs rest with
        | .ok es => .ok (.fileEntry p a :: es)
        | .error e => .error e
      else
        .error (.ioError p)

/-- `Project.build` (project.py lines 109-138): refuse an existing
destination unless `overwrite`, refuse an empty project, then write one
`<name>.job` entry per job followed by one entry per registered file. -/
def build (fs : FileSys) (self : Project) (path : String) (overwrite : Bool) :
    Except PyExc (List ZipEntry) :=
  if fs.fsExists path && !overwrite then
    .error (.azkaban ("path " ++ pyRepr path ++ " already exists"))
  else if self.jobs.isEmpty && self.files.isEmpty then
    .error (.azkaban "building empty project")
  else
    match buildFileEntries fs self.files with
    | .ok fes => .ok (buildJobEntries self ++ fes)
    | .error e => .error e

/-- An HTTP POST issued through `requests.post`: target URL, the `data=`
form fields, and the `files=` multipart parts (name of the part and the
local path opened for it). -/
structure HttpRequest where
  endpoint : String
  formData : List (String × String)
  fileParts : List (String × String)
  deriving DecidableEq, Repr

/-- The POST issued by `Project.upload` (project.py lines 156-168):
`<url>/manager` with `ajax=upload`, the session id and the project name,
plus the archive as the `file` part. -/
def uploadRequest (projName url sessionId archive : String) : HttpRequest :=
  { endpoint := url ++ "/manager"
  , formData :=
      [("ajax", "upload"), ("session.id", sessionId), ("project", projName)]
  , fileParts := [("file", archive)] }

/-- The POST issued by `Project.run` (project.py lines 202-212):
`<url>/executor` with `ajax=executeFlow`, the session id, the project name
and the flow name. -/
def runRequest (projName url sessionId flow : String) : HttpRequest :=
  { endpoint := url ++ "/executor"
  , formData :=
      [("ajax", "executeFlow"), ("session.id", sessionId),
       ("project", projName), ("flow", flow)]
  , fileParts := [] }

/-- Outcome of `requests.post` as seen by `Project.upload`'s `try` block
and the `res = req.json()` that follows it: the exceptions the `try`
catches (`ConnectionError`, `MissingSchema`, `IOError` from opening the
archive), a non-JSON body on which `req.json()` raises `ValueError`
(`badJson` — the call sits in the `else:` clause, so nothing catches it),
or a parsed JSON object (string-valued fields). -/
inductive PostOutcome where
  | connErr
  | schemaErr
  | openErr
  | badJson
  | success (res : List (String × String))
  deriving DecidableEq, Repr

/-- Outcome of `requests.post` as seen by `Project.run`'s `try` block and
the `res = req.json()` after it: as for upload but with no `IOError`
handler; `badJson` is the uncaught `ValueError` from parsing a non-JSON
body. -/
inductive RunPostOutcome where
  | connErr
  | schemaErr
  | badJson
  | success (res : List (String × String))
  deriving DecidableEq, Repr

/-- The `else` branch of `Project.upload` (project.py lines 176-184): an
`error` field becomes an `AzkabanError`; otherwise the success log message
evaluates `res['projectId']` then `res['version']`, so a missing field
raises `KeyError`; then the parsed response is returned. -/
def handleUploadResponse (res : List (String × String)) :
    Except PyExc (List (String × String)) :=
  match alookup "error" res with
  | some msg => .error (.azkaban msg)
  | none =>
      match alookup "projectId" res with
      | none => .error (.keyError "projectId")
      | some _ =>
          match alookup "version" res with
          | none => .error (.keyError "version")
          | some _ => .ok res

/-- The `else` branch of `Project.run` (project.py lines 217-229): an
`error` field becomes an `AzkabanError`; otherwise the log messages
evaluate `res['execid']`, so a missing field raises `KeyError`; then the
parsed response is returned. -/
def handleRunResponse (res : List (String × String)) :
    Except PyExc (List (String × String)) :=
  match alookup "error" res with
  | some msg => .error (.azkaban msg)
  | none =>
      match alookup "execid" res with
      | none => .error (.keyError "execid")
      | some _ => .ok res

/-- `Project.upload` after credential resolution (project.py lines
155-184), with the HTTP layer as an oracle from the request actually sent. -/
def upload (http : HttpRequest → PostOutcome) (self : Project)
    (archive url sessionId : String) : Except PyExc (List (String × String)) :=
  match http (uploadRequest self.name url sessionId archive) with
  | .connErr => .error (.azkaban "unable to connect to azkaban server")
  | .schemaErr => .error (.azkaban "invalid azkaban server url")
  | .openErr => .error (.azkaban ("unable to find archive at " ++ pyRepr archive))
  | .badJson => .error (.valueError "No JSON object could be decoded")
  | .success res => handleUploadResponse res

/-- `Project.run` after credential resolution (project.py lines 201-229),
with the HTTP layer as an oracle from the request actually sent. -/
def run (http : HttpRequest → RunPostOutcome) (self : Project)
    (flow url sessionId : String) : Except PyExc (List (String × String)) :=
  match http (runRequest self.name url sessionId flow) with
  | .connErr => .error (.azkaban "unable to connect to azkaban server")
  | .schemaErr => .error (.azkaban "invalid azkaban server url")
  | .badJson => .error (.valueError "No JSON object could be decoded")
  | .success res => handleRunResponse res

/-- What `Project.main`'s `try`/`except AzkabanError` wrapper (project.py
lines 238-300) does with the outcome of the dispatched command: an
`AzkabanError` is logged and turned into `exit(1)`; any other exception
propagates out of `main` uncaught. -/
inductive MainOutcome (α : Type) where
  | completed (v : α)
  | loggedExit (msg : String)
  | uncaught (e : PyExc)
  deriving DecidableEq, Repr

/-- The exception handler of `Project.main`: only `AzkabanError` is caught
(printed via `logger.error` and converted to `exit(1)`). -/
def mainCatch {α : Type} : Except PyExc α → MainOutcome α
  | .ok v => .completed v
  | .error (.azkaban m) => .loggedExit m
  | .error e => .uncaught e

/-- An rc file as parsed by `RawConfigParser`: section name ↦ options. -/
def RcFile : Type := List (String × List (String × String))

instance : DecidableEq RcFile := by
  unfold RcFile
  infer_instance

/-- `parser.has_section(alias)`. -/
def rcHasSection (rc : RcFile) (a : String) : Bool :=
  (alookup a rc).isSome

/-- The constructor defaults `{'user': '', 'session_id': ''}` that
`Project._get_credentials` passes to `RawConfigParser`. -/
def rcDefaults (k : String) : Option String :=
  if k = "user" then some "" else if k = "session_id" then some "" else none

/-- `parser.has_option(alias, k)`: the section's own options or the
parser-level defaults. -/
def rcHasOption (rc : RcFile) (a k : String) : Bool :=
  match alookup a rc with
  | none => (rcDefaults k).isSome
  | some opts => (alookup k opts).isSome || (rcDefaults k).isSome

/-- `parser.get(alias, k)` with fallback to the parser defaults (the model
only calls this when the option or a default is present, and returns `""`
otherwise, mirroring the defaults in use). -/
def rcGet (rc : RcFile) (a k : String) : String :=
  match alookup a rc with
  | none => ((rcDefaults k).getD "")
  | some opts =>
      match alookup k opts with
      | some v => v
      | none => (rcDefaults k).getD ""

/-- `parser.set(alias, k, v)` on the parsed file: update the option in the
named section (the section exists whenever the code calls this). -/
def rcSet (rc : RcFile) (a k v : String) : RcFile :=
  rc.map (fun sec =>
    if sec.1 = a then
      (sec.1,
        if (alookup k sec.2).isSome then
          sec.2.map (fun o => if o.1 = k then (o.1, v) else o)
        else
          sec.2 ++ [(k, v)])
    else sec)

/-- `url.rstrip('/')`. -/
def rstripSlash (s : String) : String :=
  String.mk ((s.data.reverse.dropWhile (fun c => c = '/')).reverse)

/-- Outcome of the login POST in `Project._get_credentials` (lines
336-345) and the `res = req.json()` in its `else:` clause (line 347): the
two exceptions the code catches, a non-JSON body on which `req.json()`
raises an uncaught `ValueError` (`badJson`), or the parsed JSON. -/
inductive LoginOutcome where
  | connErr
  | schemaErr
  | badJson
  | success (res : List (String × String))
  deriving DecidableEq, Repr

/-- The environment of `Project._get_credentials`: the parsed rc file, the
session-probe POST (line 329: url and `session.id` field in, response
`.text` out, or a raised exception — the probe is *outside* any `try`), the
login POST (url and form data in), the outcome of `open(self.rcpath, 'w')`
for the write-back (line 354: an `IOError` there propagates uncaught), and
the `getuser` / `getpass` oracles. -/
structure CredWorld where
  rc : RcFile
  probe : String → String → Except PyExc String
  login : String → List (String × String) → LoginOutcome
  rcWrite : Except PyExc Unit
  currentUser : String
  promptedPassword : String

/-- Result of `Project._get_credentials`: the normalized url, the session
id, and the rc-file contents written back (`none` when no write happened). -/
structure CredOut where
  url : String
  sessionId : String
  rcWritten : Option RcFile
  deriving DecidableEq

/-- Lines 313-327 of `_get_credentials`: resolve `(url, user, session_id)`
from the alias section of the rc file, or from the `url` argument (no
cached session id), raising `ValueError` — not `AzkabanError` — when
neither is given.  In the alias branch the `user` argument is overwritten
by the rc value (possibly `""` via the parser defaults). -/
def credLookup (w : CredWorld) (url user : Option String) (aliasName : Option String) :
    Except PyExc (String × Option String × Option String) :=
  match aliasName with
  | some a =>
      if !(rcHasSection w.rc a) then
        .error (.azkaban ("missing alias " ++ pyRepr a))
      else if !(rcHasOption w.rc a "url") then
        .error (.azkaban ("missing url for alias " ++ pyRepr a))
      else
        .ok (rcGet w.rc a "url", some (rcGet w.rc a "user"),
             some (rcGet w.rc a "session_id"))
  | none =>
      match url with
      | some u => .ok (u, user, none)
      | none => .error (.valueError "Either url or alias must be specified.")

/-- Lines 329-333 of `_get_credentials`: `not session_id or post(...).text`.
A missing (`none`) or empty cached id short-circuits to a re-login without
probing; otherwise the probe POST runs and a non-empty response text means
the cached id is invalid.  An exception raised by the probe propagates
unwrapped. -/
def credNeedLogin (w : CredWorld) (u : String) (sid : Option String) :
    Except PyExc Bool :=
  match sid with
  | none => .ok true
  | some s =>
      if s = "" then .ok true
      else
        match w.probe (u ++ "/manager") s with
        | .error e => .error e
        | .ok text => .ok (text ≠ "")

/-- Lines 334-355 of `_get_credentials`: resolve the username (`getuser`
when absent or empty) and password (`getpass` prompt when absent or empty),
POST the login form to the bare url (a non-JSON response body raises an
uncaught `ValueError` from `req.json()`), surface an `error` field as
`AzkabanError`, read `res['session.id']` (a missing field raises
`KeyError`), and when an alias is in use write the new session id back to
the rc file (an `IOError` from opening the rc file propagates uncaught). -/
def credLogin (w : CredWorld) (password aliasName : Option String) (u : String)
    (user : Option String) : Except PyExc CredOut :=
  let usr := match user with
    | some s => if s = "" then w.currentUser else s
    | none => w.currentUser
  let pw := match password with
    | some s => if s = "" then w.promptedPassword else s
    | none => w.promptedPassword
  match w.login u
      [("action", "login"), ("username", usr), ("password", pw)] with
  | .connErr => .error (.azkaban "unable to connect to azkaban server")
  | .schemaErr => .error (.azkaban "invalid azkaban server url")
  | .badJson => .error (.valueError "No JSON object could be decoded")
  | .success res =>
      match alookup "error" res with
      | some m => .error (.azkaban m)
      | none =>
          match alookup "session.id" res with
          | none => .error (.keyError "session.id")
          | some sid =>
              match aliasName with
              | some a =>
                  match w.rcWrite with
                  | .error e => .error e
                  | .ok _ =>
                      .ok { url := u, sessionId := sid
                          , rcWritten := some (rcSet w.rc a "session_id" sid) }
              | none => .ok { url := u, sessionId := sid, rcWritten := none }

/-- `Project._get_credentials` (project.py lines 302-356), composed from
its three phases. -/
def getCredentials (w : CredWorld) (url user password aliasName : Option String) :
    Except PyExc CredOut :=
  match credLookup w url user aliasName with
  | .error e => .error e
  | .ok (u₀, user₁, sid₀) =>
      let u := rstripSlash u₀
      match credNeedLogin w u sid₀ with
      | .error e => .error e
      | .ok false =>
          .ok { url := u, sessionId := sid₀.getD "", rcWritten := none }
      | .ok true => credLogin w password aliasName u user₁

/-- Concrete filesystem with no files at all (counterexamples/witnesses). -/
def fsNone : FileSys := { fsExists := fun _ => false, fsContent := fun _ => "" }

/-- Concrete filesystem where `/data/a.txt` and `/data/b.txt` exist. -/
def fsAB : FileSys :=
  { fsExists := fun p => p = "/data/a.txt" || p = "/data/b.txt"
  , fsContent := fun _ => "data" }

/-- A project holding one registered file and no jobs. -/
def projFileOnly : Project :=
  { name := "p", jobs := [], files := [("/a", some "x")] }

/-- A project with one job and one registered file. -/
def projOne : Project :=
  { name := "demo"
  , jobs := [("j", { content := "type=noop" })]
  , files := [("/data/a.txt", some "a.txt")] }

/-- A project with no jobs and no files. -/
def projBlank : Project := { name := "empty", jobs := [], files := [] }

/-- A source project for merge witnesses: one fresh job, one fresh file. -/
def projSrc : Project :=
  { name := "src"
  , jobs := [("a", { content := "x" })]
  , files := [("/data/b.txt", some "b.txt")] }

/-- A source project whose second job name collides with `projOne`'s job,
so a merge into `projOne` fails halfway through the jobs loop. -/
def projMergeSrc : Project :=
  { name := "half"
  , jobs := [("b", { content := "y" }), ("j", { content := "x" })]
  , files := [] }

/-- A two-object store: `projMergeSrc` at reference 0, `projOne` at 1. -/
def storeTwo : Store :=
  fun r => if r = 0 then projMergeSrc else projOne

/-- An HTTP oracle whose every response parses to the empty JSON object. -/
def httpEmptyRes : HttpRequest → PostOutcome := fun _ => .success []

/-- The same oracle for `run`'s exception profile. -/
def httpRunEmptyRes : HttpRequest → RunPostOutcome := fun _ => .success []

/-- A credential world with an empty rc file and inert oracles. -/
def credWorldBlank : CredWorld :=
  { rc := []
  , probe := fun _ _ => .ok ""
  , login := fun _ _ => .success []
  , rcWrite := .ok ()
  , currentUser := "alice"
  , promptedPassword := "promptpw" }

/-- A credential world whose rc file holds a `prod` alias with a url, a
user and a cached session id; the probe accepts the cached id and the
login issues a fresh one. -/
def credWorldProd : CredWorld :=
  { rc := [("prod", [("url", "http://host:12320/"), ("user", "bob"),
                     ("session_id", "cached")])]
  , probe := fun _ sid => if sid = "cached" then .ok "" else .ok "stale"
  , login := fun _ _ => .success [("session.id", "fresh")]
  , rcWrite := .ok ()
  , currentUser := "alice"
  , promptedPassword := "promptpw" }

/-- The target state `projOne` reaches when `projMergeSrc.merge_into`
fails on the duplicate name `j`: the job `b` added before the failure is
kept. -/
def projOneHalf : Project :=
  { name := "demo"
  , jobs := [("j", { content := "type=noop" }), ("b", { content := "y" })]
  , files := [("/data/a.txt", some "a.txt")] }

end Azkaban

namespace Azkaban

theorem alookup_append {α : Type} (k : String) (l₁ l₂ : List (String × α)) :
    alookup k (l₁ ++ l₂) =
      match alookup k l₁ with
      | some v => some v
      | none => alookup k l₂ := by
  induction l₁ with
  | nil => simp [alookup]
  | cons p rest ih =>
      obtain ⟨k', v⟩ := p
      by_cases h : k' = k <;> simp [alookup, h, ih]

theorem alookup_eq_none_iff {α : Type} (k : String) (l : List (String × α)) :
    alookup k l = none ↔ k ∉ l.map Prod.fst := by
  induction l with
  | nil => simp [alookup]
  | cons p rest ih =>
      obtain ⟨k', v⟩ := p
      by_cases h : k' = k
      · subst h; simp [alookup]
      · simp [alookup, h, ih, Ne.symm h]

theorem alookup_mem {α : Type} {k : String} {v : α} {l : List (String × α)}
    (h : alookup k l = some v) : (k, v) ∈ l := by
  induction l with
  | nil => simp [alookup] at h
  | cons p rest ih =>
      obtain ⟨k', v'⟩ := p
      by_cases hk : k' = k
      · subst hk
        simp [alookup] at h
        simp [h]
      · simp [alookup, hk] at h
        exact List.mem_cons_of_mem _ (ih h)

theorem alookup_append_some {α : Type} {k : String} {v : α}
    {l₁ : List (String × α)} (l₂ : List (String × α))
    (h : alookup k l₁ = some v) : alookup k (l₁ ++ l₂) = some v := by
  rw [alookup_append, h]

theorem add_job_ok_iff {s s' : Project} {n : String} {j : Job} :
    add_job s n j = .ok s' ↔
      alookup n s.jobs = none ∧ s' = { s with jobs := s.jobs ++ [(n, j)] } := by
  unfold add_job
  rcases h : alookup n s.jobs with _ | v <;> simp [h, eq_comm]

theorem add_job_error_of_dup {s : Project} {n : String} (j : Job)
    (h : (alookup n s.jobs).isSome) :
    add_job s n j = .error (.azkaban ("duplicate job name " ++ pyRepr n)) := by
  unfold add_job
  simp [h]

theorem add_file_ok_cases {fs : FileSys} {s s' : Project} {p : String}
    {a : Option String} (h : add_file fs s p a = .ok s') :
    isabs p = true ∧
      ((alookup p s.files = some a ∧ s' = s) ∨
       (alookup p s.files = none ∧ fs.fsExists p = true ∧
         s' = { s with files := s.files ++ [(p, a)] })) := by
  unfold add_file at h
  split at h
  · simp at h
  · rename_i habs
    have habs' : isabs p = true := by simpa using habs
    refine ⟨habs', ?_⟩
    split at h
    · rename_i a₀ hl
      split at h
      · simp at h
      · rename_i hne
        have ha : a₀ = a := by simpa using hne
        subst ha
        simp only [Except.ok.injEq] at h
        exact Or.inl ⟨hl, h.symm⟩
    · rename_i hl
      split at h
      · simp at h
      · rename_i hex
        have hex' : fs.fsExists p = true := by simpa using hex
        simp only [Except.ok.injEq] at h
        exact Or.inr ⟨hl, hex', h.symm⟩

theorem add_file_jobs_eq {fs : FileSys} {s s' : Project} {p : String}
    {a : Option String} (h : add_file fs s p a = .ok s') :
    s'.jobs = s.jobs ∧ s'.name = s.name := by
  rcases (add_file_ok_cases h).2 with ⟨_, rfl⟩ | ⟨_, _, rfl⟩ <;> exact ⟨rfl, rfl⟩

theorem add_file_files_mono {fs : FileSys} {s s' : Project} {p : String}
    {a : Option String} (h : add_file fs s p a = .ok s')
    {q : String} {b : Option String} (hq : alookup q s.files = some b) :
    alookup q s'.files = some b := by
  rcases (add_file_ok_cases h).2 with ⟨_, rfl⟩ | ⟨_, _, rfl⟩
  · exact hq
  · exact alookup_append_some _ hq

theorem addJobsAcc_files_eq (l : List (String × Job)) (t : Project) :
    (addJobsAcc t l).1.files = t.files ∧ (addJobsAcc t l).1.name = t.name := by
  induction l generalizing t with
  | nil => exact ⟨rfl, rfl⟩
  | cons p rest ih =>
      obtain ⟨n, j⟩ := p
      unfold addJobsAcc
      rcases h : add_job t n j with e | t'
      · exact ⟨rfl, rfl⟩
      · obtain ⟨hnone, rfl⟩ := add_job_ok_iff.mp h
        simpa using ih _

theorem addFilesAcc_jobs_eq (fs : FileSys) (l : List (String × Option String))
    (t : Project) :
    (addFilesAcc fs t l).1.jobs = t.jobs ∧ (addFilesAcc fs t l).1.name = t.name := by
  induction l generalizing t with
  | nil => exact ⟨rfl, rfl⟩
  | cons p rest ih =>
      obtain ⟨q, a⟩ := p
      unfold addFilesAcc
      rcases h : add_file fs t q a with e | t'
      · exact ⟨rfl, rfl⟩
      · obtain ⟨hj, hn⟩ := add_file_jobs_eq h
        refine ⟨?_, ?_⟩
        · rw [(ih t').1, hj]
        · rw [(ih t').2, hn]

theorem addJobsAcc_jobs_mono (l : List (String × Job)) (t : Project)
    {m : String} {v : Job} (hm : alookup m t.jobs = some v) :
    alookup m (addJobsAcc t l).1.jobs = some v := by
  induction l generalizing t with
  | nil => exact hm
  | cons p rest ih =>
      obtain ⟨n, j⟩ := p
      unfold addJobsAcc
      rcases h : add_job t n j with e | t'
      · exact hm
      · obtain ⟨hnone, rfl⟩ := add_job_ok_iff.mp h
        exact ih _ (alookup_append_some _ hm)

theorem addFilesAcc_files_mono (fs : FileSys) (l : List (String × Option String))
    (t : Project) {q : String} {b : Option String}
    (hq : alookup q t.files = some b) :
    alookup q (addFilesAcc fs t l).1.files = some b := by
  induction l generalizing t with
  | nil => exact hq
  | cons p rest ih =>
      obtain ⟨r, a⟩ := p
      unfold addFilesAcc
      rcases h : add_file fs t r a with e | t'
      · exact hq
      · exact ih _ (add_file_files_mono h hq)

theorem addJobsAcc_ok_contains {l : List (String × Job)} {t t' : Project}
    (h : addJobsAcc t l = (t', none)) {n : String} {j : Job}
    (hmem : (n, j) ∈ l) : alookup n t'.jobs = some j := by
  induction l generalizing t with
  | nil => simp at hmem
  | cons p rest ih =>
      obtain ⟨m, j'⟩ := p
      unfold addJobsAcc at h
      rcases hadd : add_job t m j' with e | t₁ <;> rw [hadd] at h <;> dsimp only at h
      · simp at h
      · obtain ⟨hnone, ht₁⟩ := add_job_ok_iff.mp hadd
        rcases List.mem_cons.mp hmem with heq | hrest
        · obtain ⟨h₁, h₂⟩ := Prod.mk.inj heq
          subst h₁
          subst h₂
          have hstep : alookup n t₁.jobs = some j := by
            rw [ht₁]
            simp only
            rw [alookup_append, hnone]
            simp [alookup]
          have hmono := addJobsAcc_jobs_mono rest t₁ hstep
          rw [h] at hmono
          exact hmono
        · exact ih h hrest

theorem addFilesAcc_ok_contains {fs : FileSys} {l : List (String × Option String)}
    {t t' : Project} (h : addFilesAcc fs t l = (t', none)) {p : String}
    {a : Option String} (hmem : (p, a) ∈ l) : alookup p t'.files = some a := by
  induction l generalizing t with
  | nil => simp at hmem
  | cons q rest ih =>
      obtain ⟨q₁, a₁⟩ := q
      unfold addFilesAcc at h
      rcases hadd : add_file fs t q₁ a₁ with e | t₁ <;> rw [hadd] at h <;> dsimp only at h
      · simp at h
      · rcases List.mem_cons.mp hmem with heq | hrest
        · obtain ⟨h₁, h₂⟩ := Prod.mk.inj heq
          subst h₁
          subst h₂
          have hstep : alookup p t₁.files = some a := by
            rcases (add_file_ok_cases hadd).2 with ⟨hl, rfl⟩ | ⟨hl, _, rfl⟩
            · exact hl
            · simp only
              rw [alookup_append, hl]
              simp [alookup]
          have hmono := addFilesAcc_files_mono fs rest t₁ hstep
          rw [h] at hmono
          exact hmono
        · exact ih h hrest

theorem addJobsAcc_conflict {l : List (String × Job)} {t : Project} {n : String}
    (hsrc : (alookup n l).isSome) (htgt : (alookup n t.jobs).isSome) :
    (addJobsAcc t l).2 ≠ none := by
  induction l generalizing t with
  | nil => simp [alookup] at hsrc
  | cons p rest ih =>
      obtain ⟨m, j⟩ := p
      unfold addJobsAcc
      rcases hadd : add_job t m j with e | t₁ <;> dsimp only
      · simp
      · obtain ⟨hnone, ht₁⟩ := add_job_ok_iff.mp hadd
        by_cases hm : m = n
        · subst hm
          rw [hnone] at htgt
          simp at htgt
        · have hsrc' : (alookup n rest).isSome := by
            simpa [alookup, hm] using hsrc
          have htgt' : (alookup n t₁.jobs).isSome := by
            obtain ⟨v, hv⟩ := Option.isSome_iff_exists.mp htgt
            rw [ht₁]
            simp only
            rw [alookup_append_some _ hv]
            rfl
          exact ih hsrc' htgt'

theorem addFilesAcc_conflict {fs : FileSys} {l : List (String × Option String)}
    {t : Project} {p : String} {a₀ a₁ : Option String}
    (hsrc : alookup p l = some a₀) (htgt : alookup p t.files = some a₁)
    (hne : a₀ ≠ a₁) : (addFilesAcc fs t l).2 ≠ none := by
  induction l generalizing t with
  | nil => simp [alookup] at hsrc
  | cons q rest ih =>
      obtain ⟨q₁, b⟩ := q
      unfold addFilesAcc
      rcases hadd : add_file fs t q₁ b with e | t₁ <;> dsimp only
      · simp
      · by_cases hq : q₁ = p
        · subst hq
          have hb : b = a₀ := by
            simpa [alookup] using hsrc
          subst hb
          rcases (add_file_ok_cases hadd).2 with ⟨hl, rfl⟩ | ⟨hl, _, rfl⟩
          · rw [htgt] at hl
            exact absurd (Option.some.inj hl).symm hne
          · rw [htgt] at hl
            simp at hl
        · have hsrc' : alookup p rest = some a₀ := by
            simpa [alookup, hq] using hsrc
          exact ih hsrc' (add_file_files_mono hadd htgt)

theorem addJobsAcc_success_shape {l : List (String × Job)} {t t' : Project}
    (h : addJobsAcc t l = (t', none)) :
    t'.jobs = t.jobs ++ l ∧ t'.files = t.files ∧ t'.name = t.name := by
  induction l generalizing t with
  | nil =>
      unfold addJobsAcc at h
      injection h with h₁ h₂
      subst h₁
      simp
  | cons p rest ih =>
      obtain ⟨m, j⟩ := p
      unfold addJobsAcc at h
      rcases hadd : add_job t m j with e | t₁ <;> rw [hadd] at h <;> dsimp only at h
      · simp at h
      · obtain ⟨hnone, ht₁⟩ := add_job_ok_iff.mp hadd
        obtain ⟨h₁, h₂, h₃⟩ := ih h
        rw [ht₁] at h₁ h₂ h₃
        simp only at h₁ h₂ h₃
        refine ⟨?_, h₂, h₃⟩
        rw [h₁]
        simp

theorem addJobsAcc_partial {l : List (String × Job)} {t t' : Project} {e : PyExc}
    (h : addJobsAcc t l = (t', some e)) :
    ∃ js rest, l = js ++ rest ∧ t'.jobs = t.jobs ++ js ∧
      t'.files = t.files ∧ t'.name = t.name := by
  induction l generalizing t with
  | nil =>
      unfold addJobsAcc at h
      injection h with h₁ h₂
      simp at h₂
  | cons p rest ih =>
      obtain ⟨m, j⟩ := p
      unfold addJobsAcc at h
      rcases hadd : add_job t m j with e' | t₁ <;> rw [hadd] at h <;> dsimp only at h
      · injection h with h₁ h₂
        subst h₁
        exact ⟨[], (m, j) :: rest, by simp⟩
      · obtain ⟨hnone, ht₁⟩ := add_job_ok_iff.mp hadd
        obtain ⟨js, rest', hdec, hjobs, hfiles, hname⟩ := ih h
        rw [ht₁] at hjobs hfiles hname
        simp only at hjobs hfiles hname
        refine ⟨(m, j) :: js, rest', by simp [hdec], ?_, hfiles, hname⟩
        rw [hjobs]
        simp

theorem addFilesAcc_partial {fs : FileSys} {l : List (String × Option String)}
    {t t' : Project} {e : PyExc}
    (hnd : (l.map Prod.fst).Nodup)
    (h : addFilesAcc fs t l = (t', some e)) :
    ∃ fl rest, l = fl ++ rest ∧
      t'.files = t.files ++ fl.filter (fun pa => (alookup pa.1 t.files).isNone) ∧
      t'.jobs = t.jobs ∧ t'.name = t.name := by
  induction l generalizing t with
  | nil =>
      unfold addFilesAcc at h
      injection h with h₁ h₂
      simp at h₂
  | cons q rest ih =>
      obtain ⟨p, a⟩ := q
      have hnd' : (rest.map Prod.fst).Nodup := (List.nodup_cons.mp hnd).2
      have hpfresh : p ∉ rest.map Prod.fst := (List.nodup_cons.mp hnd).1
      unfold addFilesAcc at h
      rcases hadd : add_file fs t p a with e' | t₁ <;> rw [hadd] at h <;> dsimp only at h
      · injection h with h₁ h₂
        subst h₁
        exact ⟨[], (p, a) :: rest, by simp⟩
      · obtain ⟨fl', rest', hdec, hfiles, hjobs, hname⟩ := ih hnd' h
        rcases (add_file_ok_cases hadd).2 with ⟨hl, ht₁⟩ | ⟨hl, hex, ht₁⟩
        · subst ht₁
          refine ⟨(p, a) :: fl', rest', by simp [hdec], ?_, hjobs, hname⟩
          rw [hfiles]
          simp [List.filter_cons, hl]
        · have hfl'keys : ∀ pa ∈ fl', pa.1 ≠ p := by
            intro pa hpa hpa1
            exact hpfresh (hpa1 ▸ (List.mem_map_of_mem Prod.fst (hdec ▸ List.mem_append_left rest' hpa)))
          have hfilter : fl'.filter (fun pa => (alookup pa.1 t₁.files).isNone) =
              fl'.filter (fun pa => (alookup pa.1 t.files).isNone) := by
            refine List.filter_congr ?_
            intro pa hpa
            rw [ht₁]
            simp only
            rw [alookup_append]
            rcases alookup pa.1 t.files with _ | v
            · simp [alookup, Ne.symm (hfl'keys pa hpa)]
            · rfl
          refine ⟨(p, a) :: fl', rest', by simp [hdec], ?_, ?_, ?_⟩
          · rw [hfiles, hfilter, ht₁]
            simp [List.filter_cons, hl]
          · rw [hjobs, ht₁]
          · rw [hname, ht₁]

theorem addJobsAcc_nodup {l : List (String × Job)} {t : Project}
    (hnd : (t.jobs.map Prod.fst).Nodup) :
    (((addJobsAcc t l).1.jobs.map Prod.fst)).Nodup := by
  induction l generalizing t with
  | nil => exact hnd
  | cons q rest ih =>
      obtain ⟨n, j⟩ := q
      unfold addJobsAcc
      rcases hadd : add_job t n j with e | t₁ <;> dsimp only
      · exact hnd
      · obtain ⟨hnone, ht₁⟩ := add_job_ok_iff.mp hadd
        refine ih ?_
        rw [ht₁]
        simp only [List.map_append]
        rw [List.nodup_append]
        refine ⟨hnd, by simp, ?_⟩
        intro x hx
        simp only [List.map_cons, List.map_nil, List.mem_cons, List.not_mem_nil, or_false]
        intro hxn
        subst hxn
        exact absurd hx ((alookup_eq_none_iff _ _).mp hnone)

theorem buildFileEntries_ok {fs : FileSys} {l : List (String × Option String)}
    (h : ∀ pa ∈ l, fs.fsExists pa.1 = true) :
    buildFileEntries fs l = .ok (l.map (fun pa => .fileEntry pa.1 pa.2)) := by
  induction l with
  | nil => rfl
  | cons p rest ih =>
      obtain ⟨q, a⟩ := p
      have hq := h (q, a) (List.mem_cons_self _ _)
      unfold buildFileEntries
      rw [hq]
      simp only [if_true]
      rw [ih (fun pa hpa => h pa (List.mem_cons_of_mem _ hpa))]
      simp

/-- Claim C3, counterexample: when a path is already registered with the
same archive destination, `add_file` succeeds even though the path does not
exist on disk, so "raises the domain error when path does not exist on
disk" is false as a universal statement: here `/a` is registered in
`projFileOnly`, no file exists at all, and the call returns the unchanged
project instead of raising. -/
theorem add_file_registered_missing_cex :
    fsNone.fsExists "/a" = false ∧
    add_file fsNone projFileOnly "/a" (some "x") = .ok projFileOnly := by
  constructor
  · rfl
  · decide

/-- Claim C3 (amended): `add_file` raises the domain error when the path is
relative; when the path is absolute and already registered with a different
archive destination; and when the path is absolute, *not yet registered*,
and does not exist on disk (an already-registered path is never re-checked
against the disk). -/
theorem add_file_error_spec (fs : FileSys) (s : Project) (p : String)
    (a : Option String) :
    (isabs p = false →
      add_file fs s p a =
        .error (.azkaban ("relative path not allowed " ++ pyRepr p))) ∧
    (∀ a₀, isabs p = true → alookup p s.files = some a₀ → a₀ ≠ a →
      add_file fs s p a =
        .error (.azkaban ("inconsistent duplicate " ++ pyRepr p))) ∧
    (isabs p = true → alookup p s.files = none → fs.fsExists p = false →
      add_file fs s p a =
        .error (.azkaban ("missing file " ++ pyRepr p))) := by
  refine ⟨?_, ?_, ?_⟩
  · intro habs
    unfold add_file
    rw [habs]
    rfl
  · intro a₀ habs hreg hne
    unfold add_file
    rw [habs, hreg]
    simp [hne]
  · intro habs hreg hex
    unfold add_file
    rw [habs, hreg, hex]
    rfl

/-- Witness for `add_file_error_spec`: all three error cases evaluated on
concrete inputs. -/
theorem add_file_error_spec_witness :
    add_file fsNone projBlank "rel/path" none =
      .error (.azkaban ("relative path not allowed " ++ pyRepr "rel/path")) ∧
    add_file fsNone projFileOnly "/a" (some "y") =
      .error (.azkaban ("inconsistent duplicate " ++ pyRepr "/a")) ∧
    add_file fsNone projBlank "/nowhere" none =
      .error (.azkaban ("missing file " ++ pyRepr "/nowhere")) :=
  ⟨(add_file_error_spec fsNone projBlank "rel/path" none).1 (by decide),
   (add_file_error_spec fsNone projFileOnly "/a" (some "y")).2.1 (some "x")
     (by decide) (by decide) (by decide),
   (add_file_error_spec fsNone projBlank "/nowhere" none).2.2 (by decide)
     (by decide) rfl⟩

/-- Claim C4: `add_job` raises the domain error on a duplicate name and
otherwise registers the job under that name; job-name uniqueness is
preserved by every project-mutating operation (`add_job` itself, `add_file`
which never touches the jobs dict, and `merge_into` on the target). -/
theorem add_job_spec (s : Project) (n : String) (j : Job) :
    ((alookup n s.jobs).isSome →
      add_job s n j = .error (.azkaban ("duplicate job name " ++ pyRepr n))) ∧
    (alookup n s.jobs = none →
      add_job s n j = .ok { s with jobs := s.jobs ++ [(n, j)] }) ∧
    (∀ s', add_job s n j = .ok s' → (s.jobs.map Prod.fst).Nodup →
      (s'.jobs.map Prod.fst).Nodup) ∧
    (∀ fs p a s', add_file fs s p a = .ok s' → s'.jobs = s.jobs) ∧
    (∀ fs src, (s.jobs.map Prod.fst).Nodup →
      (((merge_into fs src s).1).jobs.map Prod.fst).Nodup) := by
  refine ⟨?_, ?_, ?_, ?_, ?_⟩
  · exact add_job_error_of_dup j
  · intro hnone
    exact add_job_ok_iff.mpr ⟨hnone, rfl⟩
  · intro s' hok hnd
    obtain ⟨hnone, rfl⟩ := add_job_ok_iff.mp hok
    simp only [List.map_append]
    rw [List.nodup_append]
    refine ⟨hnd, by simp, ?_⟩
    intro x hx
    simp only [List.map_cons, List.map_nil, List.mem_cons, List.not_mem_nil, or_false]
    intro hxn
    subst hxn
    exact absurd hx ((alookup_eq_none_iff _ _).mp hnone)
  · intro fs p a s' hok
    exact (add_file_jobs_eq hok).1
  · intro fs src hnd
    unfold merge_into
    have h₁ := addJobsAcc_nodup (l := src.jobs) hnd
    rcases haj : addJobsAcc s src.jobs with ⟨t₁, oe⟩
    rw [haj] at h₁
    rcases oe with _ | e <;> dsimp only
    · rw [(addFilesAcc_jobs_eq fs src.files t₁).1]
      exact h₁
    · exact h₁

/-- Witness for `add_job_spec`: duplicate rejection and fresh registration
on a concrete project. -/
theorem add_job_spec_witness :
    add_job projOne "j" { content := "x" } =
      .error (.azkaban ("duplicate job name " ++ pyRepr "j")) ∧
    add_job projOne "k" { content := "x" } =
      .ok { projOne with jobs := projOne.jobs ++ [("k", { content := "x" })] } :=
  ⟨(add_job_spec projOne "j" { content := "x" }).1 (by decide),
   (add_job_spec projOne "k" { content := "x" }).2.1 (by decide)⟩

/-- Claim C9: re-adding an already registered absolute path with the same
archive destination succeeds and leaves the project unchanged, and the
result is the same under *any* filesystem (no existence re-check). -/
theorem add_file_idempotent (fs : FileSys) (s : Project) (p : String)
    (a : Option String) (hreg : alookup p s.files = some a)
    (habs : isabs p = true) :
    add_file fs s p a = .ok s ∧
    (∀ fs' : FileSys, add_file fs s p a = add_file fs' s p a) := by
  have hok : ∀ fs₀ : FileSys, add_file fs₀ s p a = .ok s := by
    intro fs₀
    unfold add_file
    rw [habs, hreg]
    simp
  exact ⟨hok fs, fun fs' => (hok fs).trans (hok fs').symm⟩

/-- Witness for `add_file_idempotent`: re-registering `/a` in
`projFileOnly` under a filesystem where `/a` does not exist. -/
theorem add_file_idempotent_witness :
    add_file fsNone projFileOnly "/a" (some "x") = .ok projFileOnly ∧
    add_file fsNone projFileOnly "/a" (some "x") =
      add_file fsAB projFileOnly "/a" (some "x") :=
  ⟨(add_file_idempotent fsNone projFileOnly "/a" (some "x") (by decide) (by decide)).1,
   (add_file_idempotent fsNone projFileOnly "/a" (some "x") (by decide) (by decide)).2 fsAB⟩

theorem add_job_errors {s : Project} {n : String} {j : Job} {e : PyExc}
    (h : add_job s n j = .error e) : ∃ m, e = .azkaban m := by
  unfold add_job at h
  split at h
  · exact ⟨_, (Except.error.inj h).symm⟩
  · simp at h

theorem add_file_errors {fs : FileSys} {s : Project} {p : String}
    {a : Option String} {e : PyExc} (h : add_file fs s p a = .error e) :
    ∃ m, e = .azkaban m := by
  unfold add_file at h
  split at h
  · exact ⟨_, (Except.error.inj h).symm⟩
  · split at h
    · split at h
      · exact ⟨_, (Except.error.inj h).symm⟩
      · simp at h
    · split at h
      · exact ⟨_, (Except.error.inj h).symm⟩
      · simp at h

theorem addJobsAcc_errors {l : List (String × Job)} {t t' : Project}
    {e : PyExc} (h : addJobsAcc t l = (t', some e)) : ∃ m, e = .azkaban m := by
  induction l generalizing t with
  | nil =>
      unfold addJobsAcc at h
      injection h with h₁ h₂
      simp at h₂
  | cons q rest ih =>
      obtain ⟨n, j⟩ := q
      unfold addJobsAcc at h
      rcases hadd : add_job t n j with e' | t₁ <;> rw [hadd] at h <;>
        dsimp only at h
      · injection h with h₁ h₂
        obtain rfl := Option.some.inj h₂
        exact add_job_errors hadd
      · exact ih h

theorem addFilesAcc_errors {fs : FileSys} {l : List (String × Option String)}
    {t t' : Project} {e : PyExc} (h : addFilesAcc fs t l = (t', some e)) :
    ∃ m, e = .azkaban m := by
  induction l generalizing t with
  | nil =>
      unfold addFilesAcc at h
      injection h with h₁ h₂
      simp at h₂
  | cons q rest ih =>
      obtain ⟨p, a⟩ := q
      unfold addFilesAcc at h
      rcases hadd : add_file fs t p a with e' | t₁ <;> rw [hadd] at h <;>
        dsimp only at h
      · injection h with h₁ h₂
        obtain rfl := Option.some.inj h₂
        exact add_file_errors hadd
      · exact ih h

theorem merge_into_errors {fs : FileSys} {s t t' : Project} {e : PyExc}
    (h : merge_into fs s t = (t', some e)) : ∃ m, e = .azkaban m := by
  unfold merge_into at h
  rcases haj : addJobsAcc t s.jobs with ⟨t₁, oe⟩
  rw [haj] at h
  rcases oe with _ | e₁
  · dsimp only at h
    exact addFilesAcc_errors h
  · dsimp only at h
    injection h with h₁ h₂
    obtain rfl := Option.some.inj h₂
    exact addJobsAcc_errors haj

/-- Claim C5: an error-free `merge_into` leaves every source job and every
source file looked up in the target, and a source job name already present
in the target, or a source file path present with a different archive
destination, makes the merge raise the domain error `AzkabanError`. -/
theorem merge_into_spec (fs : FileSys) (s t : Project) :
    (∀ t', merge_into fs s t = (t', none) →
      (∀ n j, (n, j) ∈ s.jobs → alookup n t'.jobs = some j) ∧
      (∀ p a, (p, a) ∈ s.files → alookup p t'.files = some a)) ∧
    ((∃ n, (alookup n s.jobs).isSome ∧ (alookup n t.jobs).isSome) ∨
     (∃ p a₀ a₁, alookup p s.files = some a₀ ∧ alookup p t.files = some a₁ ∧
        a₀ ≠ a₁) →
      ∃ m, (merge_into fs s t).2 = some (.azkaban m)) := by
  constructor
  · intro t' hok
    unfold merge_into at hok
    rcases haj : addJobsAcc t s.jobs with ⟨t₁, oe⟩
    rw [haj] at hok
    rcases oe with _ | e
    · dsimp only at hok
      refine ⟨?_, ?_⟩
      · intro n j hmem
        have hstep := addJobsAcc_ok_contains haj hmem
        have hjeq := (addFilesAcc_jobs_eq fs s.files t₁).1
        rw [hok] at hjeq
        rw [hjeq]
        exact hstep
      · intro p a hmem
        exact addFilesAcc_ok_contains hok hmem
    · dsimp only at hok
      injection hok with h₁ h₂
      simp at h₂
  · intro hconf
    have hsome : (merge_into fs s t).2 ≠ none := by
      unfold merge_into
      rcases haj : addJobsAcc t s.jobs with ⟨t₁, oe⟩
      rcases oe with _ | e
      · dsimp only
        rcases hconf with ⟨n, hs, ht⟩ | ⟨p, a₀, a₁, hs, ht, hne⟩
        · have hc := addJobsAcc_conflict hs ht
          rw [haj] at hc
          simp at hc
        · have hfeq := (addJobsAcc_files_eq s.jobs t).1
          rw [haj] at hfeq
          have ht₁ : alookup p t₁.files = some a₁ := by
            rw [hfeq]
            exact ht
          exact addFilesAcc_conflict hs ht₁ hne
      · dsimp only
        simp
    rcases hm : merge_into fs s t with ⟨t', oe⟩
    rcases oe with _ | e
    · rw [hm] at hsome
      simp at hsome
    · obtain ⟨m, rfl⟩ := merge_into_errors hm
      exact ⟨m, rfl⟩

/-- Witness for `merge_into_spec`: a successful merge of `projSrc` into
`projOne` contains the copied job and file, and a self-merge of `projOne`
(duplicate job name `j`) raises the domain error. -/
theorem merge_into_spec_witness :
    (alookup "a" (Project.jobs
        { name := "demo"
        , jobs := [("j", { content := "type=noop" }), ("a", { content := "x" })]
        , files := [("/data/a.txt", some "a.txt"), ("/data/b.txt", some "b.txt")] }) =
      some { content := "x" }) ∧
    (∃ m, (merge_into fsNone projOne projOne).2 = some (.azkaban m)) :=
  ⟨((merge_into_spec fsAB projSrc projOne).1
      { name := "demo"
      , jobs := [("j", { content := "type=noop" }), ("a", { content := "x" })]
      , files := [("/data/a.txt", some "a.txt"), ("/data/b.txt", some "b.txt")] }
      (by decide)).1 "a" { content := "x" } (by decide),
   (merge_into_spec fsNone projOne projOne).2
     (Or.inl ⟨"j", by decide, by decide⟩)⟩

/-- Claim C10: `merge_into` never writes the source object (for distinct
references, the store after the call is unchanged at the source), and when
the merge raises partway the final target keeps exactly the target's old
entries plus the successfully processed prefix of the source's jobs and
files (files already registered with the same destination are skipped). -/
theorem merge_into_frame (fs : FileSys) (σ : Store) (a b : Nat) (hab : a ≠ b)
    (hnd : (((σ a).files.map Prod.fst)).Nodup) :
    ((mergeIntoRef fs σ a b).1 a = σ a) ∧
    (∀ t' e, merge_into fs (σ a) (σ b) = (t', some e) →
      (mergeIntoRef fs σ a b).1 b = t' ∧
      ∃ js rest₁ fl rest₂,
        (σ a).jobs = js ++ rest₁ ∧ (σ a).files = fl ++ rest₂ ∧
        t'.jobs = (σ b).jobs ++ js ∧
        t'.files = (σ b).files ++
          fl.filter (fun pa => (alookup pa.1 (σ b).files).isNone)) := by
  constructor
  · unfold mergeIntoRef
    rcases hm : merge_into fs (σ a) (σ b) with ⟨t', e⟩
    dsimp only
    simp [storeSet, hab]
  · intro t' e hm
    constructor
    · unfold mergeIntoRef
      rw [hm]
      dsimp only
      simp [storeSet]
    · unfold merge_into at hm
      rcases haj : addJobsAcc (σ b) (σ a).jobs with ⟨t₁, oe⟩
      rw [haj] at hm
      rcases oe with _ | e₁
      · dsimp only at hm
        obtain ⟨hjshape, hfshape, -⟩ := addJobsAcc_success_shape haj
        obtain ⟨fl, rest, hdec, hfiles, hjobs, -⟩ := addFilesAcc_partial hnd hm
        refine ⟨(σ a).jobs, [], fl, rest, by simp, hdec, ?_, ?_⟩
        · rw [hjobs, hjshape]
        · rw [hfiles, hfshape]
      · dsimp only at hm
        injection hm with h₁ h₂
        subst h₁
        obtain ⟨js, rest, hdec, hjobs, hfiles, -⟩ := addJobsAcc_partial haj
        refine ⟨js, rest, [], (σ a).files, hdec, by simp, hjobs, ?_⟩
        rw [hfiles]
        simp

/-- Witness for `merge_into_frame`: merging `projMergeSrc` (store slot 0)
into `projOne` (slot 1) fails on the duplicate job `j`; slot 0 is
untouched and slot 1 keeps the job `b` added before the failure. -/
theorem merge_into_frame_witness :
    ((mergeIntoRef fsNone storeTwo 0 1).1 0 = storeTwo 0) ∧
    ((mergeIntoRef fsNone storeTwo 0 1).1 1 = projOneHalf ∧
      ∃ js rest₁ fl rest₂,
        (storeTwo 0).jobs = js ++ rest₁ ∧ (storeTwo 0).files = fl ++ rest₂ ∧
        projOneHalf.jobs = (storeTwo 1).jobs ++ js ∧
        projOneHalf.files = (storeTwo 1).files ++
          fl.filter (fun pa => (alookup pa.1 (storeTwo 1).files).isNone)) :=
  ⟨(merge_into_frame fsNone storeTwo 0 1 (by decide) (by decide)).1,
   (merge_into_frame fsNone storeTwo 0 1 (by decide) (by decide)).2
     projOneHalf (.azkaban ("duplicate job name " ++ pyRepr "j")) (by decide)⟩

/-- Claim C1, counterexample: with a fresh destination and a non-empty
project neither stated error condition holds, yet `build` does not write
the archive — the registered file `/a` is missing on disk, so
`writer.write` raises `IOError` instead. -/
theorem build_missing_file_cex :
    fsNone.fsExists "/dest" = false ∧
    projFileOnly.files ≠ [] ∧
    build fsNone projFileOnly "/dest" false = .error (.ioError "/a") := by
  refine ⟨rfl, by decide, by decide⟩

/-- Claim C1 (amended): `build` raises the domain error when the
destination exists and `overwrite` is false; raises the domain error when
the project has no jobs and no files; and otherwise — provided every
registered file still exists on disk — writes one `<name>.job` entry per
job followed by one entry per registered file at its archive path. -/
theorem build_spec (fs : FileSys) (s : Project) (path : String) (ow : Bool) :
    (fs.fsExists path = true → ow = false →
      build fs s path ow =
        .error (.azkaban ("path " ++ pyRepr path ++ " already exists"))) ∧
    ((fs.fsExists path = false ∨ ow = true) → s.jobs = [] → s.files = [] →
      build fs s path ow = .error (.azkaban "building empty project")) ∧
    ((fs.fsExists path = false ∨ ow = true) → (s.jobs ≠ [] ∨ s.files ≠ []) →
      (∀ pa ∈ s.files, fs.fsExists pa.1 = true) →
      build fs s path ow = .ok
        (s.jobs.map (fun p => .jobEntry (p.1 ++ ".job") p.2.content) ++
         s.files.map (fun pa => .fileEntry pa.1 pa.2))) := by
  refine ⟨?_, ?_, ?_⟩
  · intro hex how
    unfold build
    rw [hex, how]
    rfl
  · intro hfirst hj hf
    unfold build
    have hcond : (fs.fsExists path && !ow) = false := by
      rcases hfirst with h | h <;> simp [h]
    rw [hcond, hj, hf]
    simp
  · intro hfirst hne hall
    unfold build
    have hcond : (fs.fsExists path && !ow) = false := by
      rcases hfirst with h | h <;> simp [h]
    have hcond₂ : (s.jobs.isEmpty && s.files.isEmpty) = false := by
      rcases hne with h | h <;>
        simp [List.isEmpty_iff, h]
    rw [hcond, hcond₂]
    simp only [Bool.false_eq_true, if_false]
    rw [buildFileEntries_ok hall]
    rfl

/-- Witness for `build_spec`: all three cases on concrete data — an
existing destination, an empty project, and a successful build of
`projOne`. -/
theorem build_spec_witness :
    build fsAB projOne "/data/a.txt" false =
      .error (.azkaban ("path " ++ pyRepr "/data/a.txt" ++ " already exists")) ∧
    build fsAB projBlank "/out.zip" false =
      .error (.azkaban "building empty project") ∧
    build fsAB projOne "/out.zip" false =
      .ok [.jobEntry "j.job" "type=noop", .fileEntry "/data/a.txt" (some "a.txt")] :=
  ⟨(build_spec fsAB projOne "/data/a.txt" false).1 (by decide) rfl,
   (build_spec fsAB projBlank "/out.zip" false).2.1 (Or.inl (by decide)) rfl rfl,
   (build_spec fsAB projOne "/out.zip" false).2.2 (Or.inl (by decide))
     (Or.inl (by decide)) (by decide)⟩

/-- Claim C6, counterexample: the server answers `upload` with the empty
JSON object — no `error` field — yet the operation does not return the
parsed response: evaluating `res['projectId']` for the success log raises
`KeyError`. -/
theorem upload_empty_response_cex :
    alookup "error" ([] : List (String × String)) = none ∧
    upload httpEmptyRes projOne "/out.zip" "http://host" "sid" =
      .error (.keyError "projectId") := by
  exact ⟨rfl, rfl⟩

/-- Claim C6 (amended): when the POST parses to a JSON object, an `error`
field is raised as the domain error carrying that message; without an
`error` field the parsed response is returned provided it carries the
relevant fields (`projectId` and `version` for upload, `execid` for run) —
a response missing them raises `KeyError` instead of returning. -/
theorem remote_response_spec :
    (∀ (http : HttpRequest → PostOutcome) (self : Project)
        (archive url sid : String) (res : List (String × String)),
      http (uploadRequest self.name url sid archive) = .success res →
      (∀ m, alookup "error" res = some m →
        upload http self archive url sid = .error (.azkaban m)) ∧
      (alookup "error" res = none → (alookup "projectId" res).isSome →
        (alookup "version" res).isSome →
        upload http self archive url sid = .ok res) ∧
      (alookup "error" res = none → alookup "projectId" res = none →
        upload http self archive url sid = .error (.keyError "projectId"))) ∧
    (∀ (http : HttpRequest → RunPostOutcome) (self : Project)
        (flow url sid : String) (res : List (String × String)),
      http (runRequest self.name url sid flow) = .success res →
      (∀ m, alookup "error" res = some m →
        run http self flow url sid = .error (.azkaban m)) ∧
      (alookup "error" res = none → (alookup "execid" res).isSome →
        run http self flow url sid = .ok res) ∧
      (alookup "error" res = none → alookup "execid" res = none →
        run http self flow url sid = .error (.keyError "execid"))) := by
  constructor
  · intro http self archive url sid res hres
    refine ⟨?_, ?_, ?_⟩
    · intro m herr
      unfold upload
      rw [hres]
      unfold handleUploadResponse
      dsimp only
      rw [herr]
    · intro herr hpid hver
      unfold upload
      rw [hres]
      unfold handleUploadResponse
      dsimp only
      rw [herr]
      obtain ⟨pid, hpid'⟩ := Option.isSome_iff_exists.mp hpid
      obtain ⟨ver, hver'⟩ := Option.isSome_iff_exists.mp hver
      rw [hpid', hver']
    · intro herr hpid
      unfold upload
      rw [hres]
      unfold handleUploadResponse
      dsimp only
      rw [herr, hpid]
  · intro http self flow url sid res hres
    refine ⟨?_, ?_, ?_⟩
    · intro m herr
      unfold run
      rw [hres]
      unfold handleRunResponse
      dsimp only
      rw [herr]
    · intro herr hexe
      unfold run
      rw [hres]
      unfold handleRunResponse
      dsimp only
      rw [herr]
      obtain ⟨x, hx⟩ := Option.isSome_iff_exists.mp hexe
      rw [hx]
    · intro herr hexe
      unfold run
      rw [hres]
      unfold handleRunResponse
      dsimp only
      rw [herr, hexe]

/-- Witness for `remote_response_spec`: a server error message is
surfaced as the domain error on a concrete upload. -/
theorem remote_response_spec_witness :
    upload (fun _ => .success [("error", "no permission")]) projOne
      "/out.zip" "http://host" "sid" = .error (.azkaban "no permission") ∧
    run (fun _ => .success [("execid", "97")]) projOne
      "flow" "http://host" "sid" = .ok [("execid", "97")] :=
  ⟨((remote_response_spec.1 (fun _ => .success [("error", "no permission")])
      projOne "/out.zip" "http://host" "sid" [("error", "no permission")]
      rfl).1 "no permission" (by decide)),
   ((remote_response_spec.2 (fun _ => .success [("execid", "97")])
      projOne "flow" "http://host" "sid" [("execid", "97")] rfl).2.1
      (by decide) (by decide))⟩

/-- Claim C8: `upload` issues its POST at `<url>/manager` with form fields
`ajax=upload`, `session.id` and the project name, and `run` at
`<url>/executor` with `ajax=executeFlow`, `session.id`, the project name
and the flow name; each operation consults the HTTP layer only at exactly
that request. -/
theorem single_post_shape :
    (∀ (projName url sid archive : String),
      (uploadRequest projName url sid archive).endpoint = url ++ "/manager" ∧
      alookup "ajax" (uploadRequest projName url sid archive).formData =
        some "upload" ∧
      alookup "session.id" (uploadRequest projName url sid archive).formData =
        some sid ∧
      alookup "project" (uploadRequest projName url sid archive).formData =
        some projName ∧
      alookup "file" (uploadRequest projName url sid archive).fileParts =
        some archive) ∧
    (∀ (projName url sid flow : String),
      (runRequest projName url sid flow).endpoint = url ++ "/executor" ∧
      alookup "ajax" (runRequest projName url sid flow).formData =
        some "executeFlow" ∧
      alookup "session.id" (runRequest projName url sid flow).formData =
        some sid ∧
      alookup "project" (runRequest projName url sid flow).formData =
        some projName ∧
      alookup "flow" (runRequest projName url sid flow).formData = some flow) ∧
    (∀ (http http' : HttpRequest → PostOutcome) (self : Project)
        (archive url sid : String),
      http (uploadRequest self.name url sid archive) =
        http' (uploadRequest self.name url sid archive) →
      upload http self archive url sid = upload http' self archive url sid) ∧
    (∀ (http http' : HttpRequest → RunPostOutcome) (self : Project)
        (flow url sid : String),
      http (runRequest self.name url sid flow) =
        http' (runRequest self.name url sid flow) →
      run http self flow url sid = run http' self flow url sid) := by
  refine ⟨?_, ?_, ?_, ?_⟩
  · intro projName url sid archive
    refine ⟨rfl, ?_, ?_, ?_, ?_⟩ <;> simp [uploadRequest, alookup]
  · intro projName url sid flow
    refine ⟨rfl, ?_, ?_, ?_, ?_⟩ <;> simp [runRequest, alookup]
  · intro http http' self archive url sid h
    unfold upload
    rw [h]
  · intro http http' self flow url sid h
    unfold run
    rw [h]

/-- Witness for `single_post_shape`: the oracle-dependence conjuncts
applied to a concrete oracle. -/
theorem single_post_shape_witness :
    upload httpEmptyRes projOne "/out.zip" "http://host" "sid" =
      upload httpEmptyRes projOne "/out.zip" "http://host" "sid" ∧
    run httpRunEmptyRes projOne "flow" "http://host" "sid" =
      run httpRunEmptyRes projOne "flow" "http://host" "sid" :=
  ⟨single_post_shape.2.2.1 httpEmptyRes httpEmptyRes projOne
     "/out.zip" "http://host" "sid" rfl,
   single_post_shape.2.2.2 httpRunEmptyRes httpRunEmptyRes projOne
     "flow" "http://host" "sid" rfl⟩

theorem credLookup_errors {w : CredWorld} {url user aliasName : Option String}
    {e : PyExc} (h : credLookup w url user aliasName = .error e) :
    (∃ m, e = .azkaban m) ∨
    (url = none ∧ aliasName = none ∧
      e = .valueError "Either url or alias must be specified.") := by
  unfold credLookup at h
  rcases aliasName with _ | a
  · rcases url with _ | u
    · dsimp only at h
      exact Or.inr ⟨rfl, rfl, (Except.error.inj h).symm⟩
    · simp at h
  · dsimp only at h
    split at h
    · exact Or.inl ⟨_, (Except.error.inj h).symm⟩
    · split at h
      · exact Or.inl ⟨_, (Except.error.inj h).symm⟩
      · simp at h

theorem credNeedLogin_errors {w : CredWorld} {u : String} {sid : Option String}
    {e : PyExc} (h : credNeedLogin w u sid = .error e) :
    ∃ u' s', w.probe u' s' = .error e := by
  unfold credNeedLogin at h
  rcases sid with _ | s
  · simp at h
  · dsimp only at h
    split at h
    · simp at h
    · rcases hp : w.probe (u ++ "/manager") s with e' | text <;>
        rw [hp] at h <;> dsimp only at h
      · exact ⟨_, _, by rw [hp, Except.error.inj h]⟩
      · simp at h

theorem credLogin_errors {w : CredWorld} {password aliasName : Option String}
    {u : String} {user : Option String} {e : PyExc}
    (h : credLogin w password aliasName u user = .error e) :
    (∃ m, e = .azkaban m) ∨ e = .keyError "session.id" ∨
    e = .valueError "No JSON object could be decoded" ∨
    w.rcWrite = .error e := by
  unfold credLogin at h
  dsimp only at h
  split at h
  · exact Or.inl ⟨_, (Except.error.inj h).symm⟩
  · exact Or.inl ⟨_, (Except.error.inj h).symm⟩
  · exact Or.inr (Or.inr (Or.inl (Except.error.inj h).symm))
  · split at h
    · exact Or.inl ⟨_, (Except.error.inj h).symm⟩
    · split at h
      · exact Or.inr (Or.inl (Except.error.inj h).symm)
      · split at h
        · rcases hw : w.rcWrite with e' | u' <;> rw [hw] at h <;>
            dsimp only at h
          · refine Or.inr (Or.inr (Or.inr ?_))
            rw [Except.error.inj h]
          · simp at h
        · simp at h

theorem getCredentials_errors {w : CredWorld}
    {url user password aliasName : Option String} {e : PyExc}
    (h : getCredentials w url user password aliasName = .error e) :
    (∃ m, e = .azkaban m) ∨
    (url = none ∧ aliasName = none ∧
      e = .valueError "Either url or alias must be specified.") ∨
    e = .keyError "session.id" ∨
    e = .valueError "No JSON object could be decoded" ∨
    (∃ u' s', w.probe u' s' = .error e) ∨
    w.rcWrite = .error e := by
  unfold getCredentials at h
  split at h
  · rename_i e₁ hcl
    rw [Except.error.inj h] at hcl
    rcases credLookup_errors hcl with h₂ | h₂
    · exact Or.inl h₂
    · exact Or.inr (Or.inl h₂)
  · rename_i u₀ user₁ sid₀ hcl
    dsimp only at h
    split at h
    · rename_i e₂ hnl
      rw [Except.error.inj h] at hnl
      exact Or.inr (Or.inr (Or.inr (Or.inr (Or.inl
        (credNeedLogin_errors hnl)))))
    · simp at h
    · rcases credLogin_errors h with h₂ | h₂ | h₂ | h₂
      · exact Or.inl h₂
      · exact Or.inr (Or.inr (Or.inl h₂))
      · exact Or.inr (Or.inr (Or.inr (Or.inl h₂)))
      · exact Or.inr (Or.inr (Or.inr (Or.inr (Or.inr h₂))))

/-- Claim C2, counterexample: `_get_credentials` called with neither a url
nor an alias raises `ValueError`, not the domain error `AzkabanError`, and
`main`'s handler does not catch it — so not every failure travels through
the single domain error type. -/
theorem get_credentials_valueerror_cex :
    getCredentials credWorldBlank none none none none =
      .error (.valueError "Either url or alias must be specified.") ∧
    @mainCatch CredOut (getCredentials credWorldBlank none none none none) =
      .uncaught (.valueError "Either url or alias must be specified.") :=
  ⟨rfl, rfl⟩

/-- Claim C2 (amended): failures of the modeled operations are raised as
the domain error `AzkabanError`, which `main` logs and converts to a
non-zero exit, *except* that credential resolution raises `ValueError`
when neither url nor alias is supplied, propagates a probe-call exception
unwrapped, raises `ValueError` when the login response body is not JSON,
raises `KeyError` when a successful login response lacks `session.id`,
and propagates the `IOError` from opening the rc file for the write-back;
upload/run raise `ValueError` on a non-JSON response body and `KeyError`
when a non-error response lacks the logged fields.  None of those escape
hatches is caught by `main`. -/
theorem error_channel_spec :
    (∀ (w : CredWorld) (url user password aliasName : Option String)
        (e : PyExc),
      getCredentials w url user password aliasName = .error e →
      (∃ m, e = .azkaban m) ∨
      (url = none ∧ aliasName = none ∧
        e = .valueError "Either url or alias must be specified.") ∨
      e = .keyError "session.id" ∨
      e = .valueError "No JSON object could be decoded" ∨
      (∃ u' s', w.probe u' s' = .error e) ∨
      w.rcWrite = .error e) ∧
    (∀ (http : HttpRequest → PostOutcome) (self : Project)
        (archive url sid : String) (e : PyExc),
      upload http self archive url sid = .error e →
      (∃ m, e = .azkaban m) ∨ e = .keyError "projectId" ∨
        e = .keyError "version" ∨
        e = .valueError "No JSON object could be decoded") ∧
    (∀ (http : HttpRequest → RunPostOutcome) (self : Project)
        (flow url sid : String) (e : PyExc),
      run http self flow url sid = .error e →
      (∃ m, e = .azkaban m) ∨ e = .keyError "execid" ∨
        e = .valueError "No JSON object could be decoded") ∧
    (∀ (α : Type) (m : String),
      @mainCatch α (.error (.azkaban m)) = .loggedExit m) ∧
    (∀ (α : Type) (e : PyExc), (∀ m, e ≠ .azkaban m) →
      @mainCatch α (.error e) = .uncaught e) ∧
    (∀ (α : Type) (v : α), @mainCatch α (.ok v) = .completed v) := by
  refine ⟨?_, ?_, ?_, ?_, ?_, ?_⟩
  · intro w url user password aliasName e h
    exact getCredentials_errors h
  · intro http self archive url sid e h
    unfold upload at h
    split at h
    · exact Or.inl ⟨_, (Except.error.inj h).symm⟩
    · exact Or.inl ⟨_, (Except.error.inj h).symm⟩
    · exact Or.inl ⟨_, (Except.error.inj h).symm⟩
    · exact Or.inr (Or.inr (Or.inr (Except.error.inj h).symm))
    · unfold handleUploadResponse at h
      split at h
      · exact Or.inl ⟨_, (Except.error.inj h).symm⟩
      · split at h
        · exact Or.inr (Or.inl (Except.error.inj h).symm)
        · split at h
          · exact Or.inr (Or.inr (Or.inl (Except.error.inj h).symm))
          · simp at h
  · intro http self flow url sid e h
    unfold run at h
    split at h
    · exact Or.inl ⟨_, (Except.error.inj h).symm⟩
    · exact Or.inl ⟨_, (Except.error.inj h).symm⟩
    · exact Or.inr (Or.inr (Except.error.inj h).symm)
    · unfold handleRunResponse at h
      split at h
      · exact Or.inl ⟨_, (Except.error.inj h).symm⟩
      · split at h
        · exact Or.inr (Or.inl (Except.error.inj h).symm)
        · simp at h
  · intro α m
    rfl
  · intro α e he
    cases e with
    | azkaban m => exact absurd rfl (he m)
    | valueError m => rfl
    | keyError k => rfl
    | ioError p => rfl
    | connectionError => rfl
    | missingSchema => rfl
  · intro α v
    rfl

/-- Witness for `error_channel_spec`: the credential-resolution channel
instantiated at the `ValueError` input, and the `main` handler on a
concrete domain error. -/
theorem error_channel_spec_witness :
    ((∃ m, PyExc.valueError "Either url or alias must be specified." =
        .azkaban m) ∨
     ((none : Option String) = none ∧ (none : Option String) = none ∧
       PyExc.valueError "Either url or alias must be specified." =
         .valueError "Either url or alias must be specified.") ∨
     PyExc.valueError "Either url or alias must be specified." =
       .keyError "session.id" ∨
     PyExc.valueError "Either url or alias must be specified." =
       .valueError "No JSON object could be decoded" ∨
     (∃ u' s', credWorldBlank.probe u' s' =
        .error (.valueError "Either url or alias must be specified.")) ∨
     credWorldBlank.rcWrite =
       .error (.valueError "Either url or alias must be specified.")) ∧
    @mainCatch CredOut (.error (.azkaban "boom")) = .loggedExit "boom" :=
  ⟨error_channel_spec.1 credWorldBlank none none none none
     (.valueError "Either url or alias must be specified.") rfl,
   error_channel_spec.2.2.2.1 CredOut "boom"⟩

theorem credLookup_alias_missing {w : CredWorld} {a : String}
    (h : alookup a w.rc = none) (url user : Option String) :
    credLookup w url user (some a) =
      .error (.azkaban ("missing alias " ++ pyRepr a)) := by
  unfold credLookup
  dsimp only
  rw [show rcHasSection w.rc a = false from by simp [rcHasSection, h]]
  rfl

theorem credLookup_alias_nourl {w : CredWorld} {a : String}
    {opts : List (String × String)} (h : alookup a w.rc = some opts)
    (hurl : alookup "url" opts = none) (url user : Option String) :
    credLookup w url user (some a) =
      .error (.azkaban ("missing url for alias " ++ pyRepr a)) := by
  unfold credLookup
  dsimp only
  rw [show rcHasSection w.rc a = true from by simp [rcHasSection, h]]
  rw [show rcHasOption w.rc a "url" = false from by
    simp [rcHasOption, h, hurl, show rcDefaults "url" = none from rfl]]
  rfl

theorem credLookup_alias_ok {w : CredWorld} {a : String}
    {opts : List (String × String)} {u₀ : String}
    (h : alookup a w.rc = some opts) (hurl : alookup "url" opts = some u₀)
    (url user : Option String) :
    credLookup w url user (some a) =
      .ok (u₀, some (rcGet w.rc a "user"), some (rcGet w.rc a "session_id")) := by
  unfold credLookup
  dsimp only
  rw [show rcHasSection w.rc a = true from by simp [rcHasSection, h]]
  rw [show rcHasOption w.rc a "url" = true from by simp [rcHasOption, h, hurl]]
  simp only [Bool.not_true, Bool.false_eq_true, if_false]
  rw [show rcGet w.rc a "url" = u₀ from by simp [rcGet, h, hurl]]

/-- Claim C7: credential resolution with an alias reads url, user and
cached session id from the rc file (raising the domain error when the
section or its url option is missing); an empty or probe-rejected cached
id triggers a login with the supplied password — or the `getpass` prompt
when none was supplied — and on a successful login (with the rc file
writable) the fresh session id is written back into the alias section of
the rc file; a cached id accepted by the probe is returned directly with
no login and no write. -/
theorem get_credentials_spec (w : CredWorld) (url user password : Option String)
    (a : String) :
    (alookup a w.rc = none →
      getCredentials w url user password (some a) =
        .error (.azkaban ("missing alias " ++ pyRepr a))) ∧
    (∀ opts, alookup a w.rc = some opts → alookup "url" opts = none →
      getCredentials w url user password (some a) =
        .error (.azkaban ("missing url for alias " ++ pyRepr a))) ∧
    (∀ opts u₀ sid, alookup a w.rc = some opts →
      alookup "url" opts = some u₀ →
      alookup "session_id" opts = some sid → sid ≠ "" →
      w.probe (rstripSlash u₀ ++ "/manager") sid = .ok "" →
      getCredentials w url user password (some a) =
        .ok { url := rstripSlash u₀, sessionId := sid, rcWritten := none }) ∧
    (∀ opts u₀ sid usr pw res newSid, alookup a w.rc = some opts →
      alookup "url" opts = some u₀ →
      alookup "session_id" opts = some sid →
      alookup "user" opts = some usr → usr ≠ "" →
      password = some pw → pw ≠ "" →
      (sid = "" ∨ (∃ text, text ≠ "" ∧
        w.probe (rstripSlash u₀ ++ "/manager") sid = .ok text)) →
      w.rcWrite = .ok () →
      w.login (rstripSlash u₀)
        [("action", "login"), ("username", usr), ("password", pw)] =
        .success res →
      alookup "error" res = none → alookup "session.id" res = some newSid →
      getCredentials w url user password (some a) =
        .ok { url := rstripSlash u₀, sessionId := newSid
            , rcWritten := some (rcSet w.rc a "session_id" newSid) }) ∧
    (∀ opts u₀ sid usr res newSid, alookup a w.rc = some opts →
      alookup "url" opts = some u₀ →
      alookup "session_id" opts = some sid →
      alookup "user" opts = some usr → usr ≠ "" →
      password = none →
      (sid = "" ∨ (∃ text, text ≠ "" ∧
        w.probe (rstripSlash u₀ ++ "/manager") sid = .ok text)) →
      w.rcWrite = .ok () →
      w.login (rstripSlash u₀)
        [("action", "login"), ("username", usr),
         ("password", w.promptedPassword)] = .success res →
      alookup "error" res = none → alookup "session.id" res = some newSid →
      getCredentials w url user password (some a) =
        .ok { url := rstripSlash u₀, sessionId := newSid
            , rcWritten := some (rcSet w.rc a "session_id" newSid) }) := by
  refine ⟨?_, ?_, ?_, ?_, ?_⟩
  · intro hno
    unfold getCredentials
    rw [credLookup_alias_missing hno url user]
  · intro opts hsec hurl
    unfold getCredentials
    rw [credLookup_alias_nourl hsec hurl url user]
  · intro opts u₀ sid hsec hurl hsid hne hprobe
    unfold getCredentials
    rw [credLookup_alias_ok hsec hurl url user]
    dsimp only
    rw [show rcGet w.rc a "session_id" = sid from by simp [rcGet, hsec, hsid]]
    have hnl : credNeedLogin w (rstripSlash u₀) (some sid) = .ok false := by
      unfold credNeedLogin
      dsimp only
      rw [if_neg hne, hprobe]
      dsimp only
      simp
    rw [hnl]
    rfl
  · intro opts u₀ sid usr pw res newSid hsec hurl hsid husr husrne hpw hpwne
      hstale hwrite hlogin herr hsessid
    subst hpw
    unfold getCredentials
    rw [credLookup_alias_ok hsec hurl url user]
    dsimp only
    rw [show rcGet w.rc a "session_id" = sid from by simp [rcGet, hsec, hsid]]
    rw [show rcGet w.rc a "user" = usr from by simp [rcGet, hsec, husr]]
    have hnl : credNeedLogin w (rstripSlash u₀) (some sid) = .ok true := by
      unfold credNeedLogin
      dsimp only
      by_cases hsid0 : sid = ""
      · rw [if_pos hsid0]
      · rcases hstale with hsid0' | ⟨text, htne, hpr⟩
        · exact absurd hsid0' hsid0
        · rw [if_neg hsid0, hpr]
          dsimp only
          simp [htne]
    rw [hnl]
    dsimp only
    unfold credLogin
    dsimp only
    rw [if_neg husrne, if_neg hpwne, hlogin]
    dsimp only
    rw [herr]
    dsimp only
    rw [hsessid]
    dsimp only
    rw [hwrite]
  · intro opts u₀ sid usr res newSid hsec hurl hsid husr husrne hpw hstale
      hwrite hlogin herr hsessid
    subst hpw
    unfold getCredentials
    rw [credLookup_alias_ok hsec hurl url user]
    dsimp only
    rw [show rcGet w.rc a "session_id" = sid from by simp [rcGet, hsec, hsid]]
    rw [show rcGet w.rc a "user" = usr from by simp [rcGet, hsec, husr]]
    have hnl : credNeedLogin w (rstripSlash u₀) (some sid) = .ok true := by
      unfold credNeedLogin
      dsimp only
      by_cases hsid0 : sid = ""
      · rw [if_pos hsid0]
      · rcases hstale with hsid0' | ⟨text, htne, hpr⟩
        · exact absurd hsid0' hsid0
        · rw [if_neg hsid0, hpr]
          dsimp only
          simp [htne]
    rw [hnl]
    dsimp only
    unfold credLogin
    dsimp only
    rw [if_neg husrne, hlogin]
    dsimp only
    rw [herr]
    dsimp only
    rw [hsessid]
    dsimp only
    rw [hwrite]

/-- Witness for `get_credentials_spec`: against the concrete `prod` alias
of `credWorldProd` — a valid cached token is returned unchanged with no
rc write, and with an invalidated cache plus no supplied password the
prompted password is exchanged for the fresh token which is written back
to the rc file. -/
theorem get_credentials_spec_witness :
    getCredentials credWorldProd none none none (some "prod") =
      .ok { url := "http://host:12320", sessionId := "cached"
          , rcWritten := none } ∧
    getCredentials
      { credWorldProd with probe := fun _ _ => .ok "please login" }
      none none none (some "prod") =
      .ok { url := "http://host:12320", sessionId := "fresh"
          , rcWritten := some
              [("prod", [("url", "http://host:12320/"), ("user", "bob"),
                         ("session_id", "fresh")])] } :=
  ⟨by
    have h := (get_credentials_spec credWorldProd none none none "prod").2.2.1
      [("url", "http://host:12320/"), ("user", "bob"), ("session_id", "cached")]
      "http://host:12320/" "cached" (by decide) (by decide) (by decide)
      (by decide) rfl
    simpa using h,
   by
    have h := (get_credentials_spec
        { credWorldProd with probe := fun _ _ => .ok "please login" }
        none none none "prod").2.2.2.2
      [("url", "http://host:12320/"), ("user", "bob"), ("session_id", "cached")]
      "http://host:12320/" "cached" "bob" [("session.id", "fresh")] "fresh"
      (by decide) (by decide) (by decide) (by decide) (by decide) rfl
      (Or.inr ⟨"please login", by decide, rfl⟩) rfl rfl (by decide) (by decide)
    simpa using h⟩

end Azkaban
